import Mathlib

set_option maxRecDepth 100000

/-!
Verification of the webotron S3 sync tool
(`automating-aws-with-python/01-static-website/webotron/webotron.py`).

Files are modelled as lists of bytes (`List Nat`, each element < 256 where it
matters), paths as lists of path components, the remote manifest as an
association list from key to stored ETag string, and the S3 upload call as a
record of the arguments the code passes to `Bucket.upload_file`.
-/

/-! ## Bytes and hex -/

/-- Lower-case hex character for a nibble, as produced by Python's
`hexdigest`. -/
def hexChar (n : Nat) : Char :=
  if n < 10 then Char.ofNat (48 + n) else Char.ofNat (87 + n)

/-- Two lower-case hex characters of one byte. -/
def byteHex (b : Nat) : List Char :=
  [hexChar (b / 16), hexChar (b % 16)]

/-- Lower-case hex string of a byte sequence (Python `hexdigest`). -/
def bytesToHex (bs : List Nat) : String :=
  String.mk (bs.flatMap byteHex)

/-- Little-endian byte serialisation of `x` on `n` bytes. -/
def toLEBytes (n x : Nat) : List Nat :=
  (List.range n).map (fun i => (x >>> (8 * i)) % 256)

/-! ## MD5 (model of Python's `hashlib.md5`)

The repository hashes data with `hashlib.md5`; the library is outside the
repository, so the RFC 1321 algorithm is implemented here directly on byte
lists.  Every theorem below treats `md5` as a black box: only `gen_etag`'s
chunking and formatting around it are reasoned about. -/

def mask32 : Nat := 4294967295

def add32 (a b : Nat) : Nat := (a + b) % 4294967296

def not32 (a : Nat) : Nat := mask32 ^^^ a

def rotl32 (x s : Nat) : Nat :=
  ((x <<< s) % 4294967296) ||| (x >>> (32 - s))

/-- MD5 per-round left-rotation amounts. -/
def md5S : List Nat :=
  [7, 12, 17, 22, 7, 12, 17, 22, 7, 12, 17, 22, 7, 12, 17, 22,
   5, 9, 14, 20, 5, 9, 14, 20, 5, 9, 14, 20, 5, 9, 14, 20,
   4, 11, 16, 23, 4, 11, 16, 23, 4, 11, 16, 23, 4, 11, 16, 23,
   6, 10, 15, 21, 6, 10, 15, 21, 6, 10, 15, 21, 6, 10, 15, 21]

/-- MD5 sine-derived constant table. -/
def md5K : List Nat :=
  [3614090360, 3905402710, 606105819, 3250441966, 4118548399, 1200080426, 2821735955, 4249261313,
   1770035416, 2336552879, 4294925233, 2304563134, 1804603682, 4254626195, 2792965006, 1236535329,
   4129170786, 3225465664, 643717713, 3921069994, 3593408605, 38016083, 3634488961, 3889429448,
   568446438, 3275163606, 4107603335, 1163531501, 2850285829, 4243563512, 1735328473, 2368359562,
   4294588738, 2272392833, 1839030562, 4259657740, 2763975236, 1272893353, 4139469664, 3200236656,
   681279174, 3936430074, 3572445317, 76029189, 3654602809, 3873151461, 530742520, 3299628645,
   4096336452, 1126891415, 2878612391, 4237533241, 1700485571, 2399980690, 4293915773, 2240044497,
   1873313359, 4264355552, 2734768916, 1309151649, 4149444226, 3174756917, 718787259, 3951481745]

/-- MD5 padding: append `0x80`, zero bytes to 56 mod 64, then the original
bit length on 8 little-endian bytes. -/
def md5Pad (msg : List Nat) : List Nat :=
  let padLen := (119 - msg.length % 64) % 64
  msg ++ [128] ++ List.replicate padLen 0 ++ toLEBytes 8 ((msg.length * 8) % 18446744073709551616)

/-- Fuel-driven worker for splitting a byte list into chunks of `n` bytes:
take `n`, recurse on the remainder.  The fuel argument only makes the
recursion structural; any fuel at least the list's length gives the same
result (`chunksAux_fuel`). -/
def chunksAux (n : Nat) : Nat → List Nat → List (List Nat)
  | _, [] => []
  | 0, _ :: _ => []
  | fuel + 1, a :: rest => ((a :: rest).take n) :: chunksAux n fuel ((a :: rest).drop n)

/-- Split a byte list into chunks of `n` bytes (the read loop of `gen_etag`,
and the 64-byte block split of MD5). -/
def chunksOf (n : Nat) (data : List Nat) : List (List Nat) :=
  chunksAux n data.length data

/-- Split a byte list into 64-byte blocks. -/
def blocks64 (l : List Nat) : List (List Nat) := chunksOf 64 l

/-- Little-endian 32-bit word `i` of a 64-byte block. -/
def blockWord (block : List Nat) (i : Nat) : Nat :=
  block.getD (4 * i) 0 + 256 * (block.getD (4 * i + 1) 0 +
    256 * (block.getD (4 * i + 2) 0 + 256 * block.getD (4 * i + 3) 0))

/-- One MD5 round. -/
def md5Step (block : List Nat) (st : Nat × Nat × Nat × Nat) (i : Nat) :
    Nat × Nat × Nat × Nat :=
  let a := st.1
  let b := st.2.1
  let c := st.2.2.1
  let d := st.2.2.2
  let f :=
    if i < 16 then (b &&& c) ||| (not32 b &&& d)
    else if i < 32 then (d &&& b) ||| (not32 d &&& c)
    else if i < 48 then b ^^^ c ^^^ d
    else c ^^^ (b ||| not32 d)
  let g :=
    if i < 16 then i
    else if i < 32 then (5 * i + 1) % 16
    else if i < 48 then (3 * i + 5) % 16
    else (7 * i) % 16
  let tmp := add32 (add32 (add32 a f) (md5K.getD i 0)) (blockWord block g)
  (d, add32 b (rotl32 tmp (md5S.getD i 0)), b, c)

/-- Process one 64-byte block into the running MD5 state. -/
def md5Block (st : Nat × Nat × Nat × Nat) (block : List Nat) :
    Nat × Nat × Nat × Nat :=
  let r := (List.range 64).foldl (md5Step block) st
  (add32 st.1 r.1, add32 st.2.1 r.2.1, add32 st.2.2.1 r.2.2.1, add32 st.2.2.2 r.2.2.2)

/-- MD5 digest (16 bytes) of a byte list. -/
def md5 (msg : List Nat) : List Nat :=
  let st := (blocks64 (md5Pad msg)).foldl md5Block
    (1732584193, 4023233417, 2562383102, 271733878)
  toLEBytes 4 st.1 ++ toLEBytes 4 st.2.1 ++ toLEBytes 4 st.2.2.1 ++ toLEBytes 4 st.2.2.2

/-! ## Digest computation (`hash_data`, `gen_etag`) -/

/-- `webotron.CHUNK_SIZE`: 8 MiB. -/
def CHUNK_SIZE : Nat := 8388608

/-- `webotron.hash_data`: build the MD5 hash of `data`.  The Python function
returns a hash object; it is modelled by its raw digest bytes, with
`hexdigest` recovered by `bytesToHex`. -/
def hash_data (data : List Nat) : List Nat := md5 data

/-- The chunk list produced by `gen_etag`'s read loop: repeatedly read
`CHUNK_SIZE` bytes until the file is exhausted. -/
def fileChunks (data : List Nat) : List (List Nat) :=
  chunksOf CHUNK_SIZE data

/-- `webotron.gen_etag`: hash each chunk; with no chunks return `None`; with
one chunk return the quoted hexdigest; with several, hash the concatenation
(`reduce` of `+` over the raw digests) and append `-<chunk count>` inside the
quotes. -/
def gen_etag (file : List Nat) : Option String :=
  let hashes := (fileChunks file).map hash_data
  match hashes with
  | [] => none
  | [h] => some ("\"" ++ bytesToHex h ++ "\"")
  | h :: h2 :: t =>
    some ("\"" ++ bytesToHex (hash_data ((h2 :: t).foldl (· ++ ·) h)) ++ "-"
      ++ toString (h :: h2 :: t).length ++ "\"")

/-! ## Module-level state and `cli`

`webotron.py` initialises module globals `session = None`, `resource = None`,
`manifest = {}`, `transfer_config = None`.  The `cli` group callback declares
`global resource, session` — and only those two names — so its assignment to
`transfer_config` binds a function-local variable that is discarded when the
callback returns. -/

/-- The arguments of `boto3.s3.transfer.TransferConfig` that `cli`
constructs. -/
structure TransferConfig where
  multipart_chunksize : Nat
  multipart_threshold : Nat
deriving DecidableEq, Repr

/-- The module-level mutable state relevant to the sync: the
`transfer_config` global (the `session`/`resource` handles are opaque to every
claim and are not modelled; the `manifest` global is passed explicitly). -/
structure ModuleState where
  transfer_config : Option TransferConfig
deriving DecidableEq, Repr

/-- Module initialisation: `transfer_config = None`. -/
def initState : ModuleState := { transfer_config := none }

/-- `webotron.cli`: the `global` statement lists only `resource` and
`session`, so the `TransferConfig(multipart_chunksize=CHUNK_SIZE,
multipart_threshold=CHUNK_SIZE)` built here is bound to a local
`transfer_config` and dropped; the module state is returned with its
`transfer_config` field unchanged. -/
def cli (st : ModuleState) : ModuleState :=
  let transfer_config := TransferConfig.mk CHUNK_SIZE CHUNK_SIZE
  let _ := transfer_config
  st

/-! ## Content type (model of Python's `mimetypes.guess_type`) -/

/-- Model of the `mimetypes` extension table: a fixed mapping from lower-case
file extension to MIME type. -/
def types_map : List (String × String) :=
  [(".css", "text/css"), (".gif", "image/gif"), (".htm", "text/html"),
   (".html", "text/html"), (".jpeg", "image/jpeg"), (".jpg", "image/jpeg"),
   (".js", "text/javascript"), (".json", "application/json"),
   (".pdf", "application/pdf"), (".png", "image/png"),
   (".svg", "image/svg+xml"), (".txt", "text/plain"), (".xml", "text/xml")]

/-- Index of the last occurrence of `t` in `cs`, or `-1` (Python `rfind`). -/
def lastIdxAux (t : Char) : List Char → Nat → Int → Int
  | [], _, acc => acc
  | c :: cs, i, acc => lastIdxAux t cs (i + 1) (if c = t then (i : Int) else acc)

def lastIdx (cs : List Char) (t : Char) : Int := lastIdxAux t cs 0 (-1)

/-- Model of `posixpath.splitext`'s extension: the suffix from the last dot,
provided that dot lies inside the last path component and some character
between the component start and the dot is not a dot. -/
def splitext_ext (cs : List Char) : List Char :=
  let di := lastIdx cs '.'
  let si := lastIdx cs '/'
  if di > si ∧ ((cs.take di.toNat).drop (si + 1).toNat).any (fun c => c ≠ '.')
  then cs.drop di.toNat else []

/-- Model of `mimetypes.guess_type(...)[0]`: look the (lower-cased) extension
up in the table; `None` when unrecognised. -/
def guess_type (key : String) : Option String :=
  types_map.lookup (String.mk ((splitext_ext key.toList).map Char.toLower))

/-! ## Manifest and the conditional upload -/

/-- The `manifest` global: a Python dict from object key to stored ETag,
modelled as an association list (first hit wins on lookup). -/
def Manifest := List (String × String)

/-- Python `manifest.get(key, "")`. -/
def manifestGet (m : Manifest) (key dflt : String) : String :=
  (List.lookup key m).getD dflt

/-- Python `==` between a `str` and an `Optional[str]`: comparison with
`None` is `False`. -/
def pyStrEq (s : String) : Option String → Bool
  | none => false
  | some t => s == t

/-- The arguments `_upload_object_when_key_available` passes to
`Bucket(bucket).upload_file`: the file (by its contents), the key, the
`ContentType` extra argument and the `Config` transfer configuration. -/
structure UploadAction where
  bucket : String
  object : List Nat
  key : String
  contentType : String
  config : Option TransferConfig
deriving DecidableEq, Repr

/-- `webotron._upload_object_when_key_available`: guess the content type from
the key, compute the etag, skip (`none`) when `manifest.get(key, "") == etag`,
otherwise upload with the given `Config` (the module-level
`transfer_config`). -/
def _upload_object_when_key_available (transfer_config : Option TransferConfig)
    (manifest : Manifest) (bucket : String) (object : List Nat) (key : String) :
    Option UploadAction :=
  let content_type := (guess_type key).getD "text/plain"
  let etag := gen_etag object
  if pyStrEq (manifestGet manifest key "") etag then none
  else some { bucket := bucket, object := object, key := key,
              contentType := content_type, config := transfer_config }

/-! ## Directory trees and the sync walk (`sync_dir` / `handle_dir`) -/

mutual
/-- A directory entry: a regular file with its contents, or a directory with
its children in listing order. -/
inductive Entry where
  | file (name : String) (contents : List Nat)
  | dir (name : String) (children : Forest)

/-- The ordered children of a directory. -/
inductive Forest where
  | nil
  | cons (e : Entry) (rest : Forest)
end

/-- Python `Path.relative_to`: strip `root` from the front of `p`, raising
(`none`) when `p` is not below `root`.  Paths are lists of components. -/
def relative_to (p root : List String) : Option (List String) :=
  if p.take root.length = root then some (p.drop root.length) else none

/-- The outcome `handle_dir` records for one visited file: the file's
absolute path, and either the processed result (an upload action, or `none`
for a skip) or the caught-and-printed per-file error. -/
structure SyncResult where
  path : List String
  outcome : Except String (Option UploadAction)

/-- The body of `handle_dir`'s `try` block for one file `p`: compute the key
`str(p.relative_to(root))` and hand it to the per-file processor (for the real
sync, `_upload_object_when_key_available`); any raise is caught per file. -/
def processFile (proc : List Nat → String → Except String (Option UploadAction))
    (root p : List String) (contents : List Nat) :
    Except String (Option UploadAction) :=
  match relative_to p root with
  | none => Except.error "relative_to: not a subpath"
  | some rel => proc contents (String.intercalate "/" rel)

mutual
/-- `handle_dir` on one entry of the current directory: recurse into a
subdirectory, process a file (its failure is caught and recorded, and the
iteration continues). -/
def handleEntry (proc : List Nat → String → Except String (Option UploadAction))
    (root : List String) : List String → Entry → List SyncResult
  | cur, .file n c => [⟨cur ++ [n], processFile proc root (cur ++ [n]) c⟩]
  | cur, .dir n children => handleForest proc root (cur ++ [n]) children

/-- `handle_dir`'s `for p in target.iterdir()` loop over a directory's
children. -/
def handleForest (proc : List Nat → String → Except String (Option UploadAction))
    (root : List String) : List String → Forest → List SyncResult
  | _, .nil => []
  | cur, .cons e rest => handleEntry proc root cur e ++ handleForest proc root cur rest
end

/-- `webotron.sync_dir` after `load_manifest`: walk the resolved root's
children with `_upload_object_when_key_available` (which raises nothing in
this model, so each outcome is `ok`). -/
def sync_dir (transfer_config : Option TransferConfig) (manifest : Manifest)
    (bucket : String) (root : List String) (tree : Forest) : List SyncResult :=
  handleForest
    (fun contents key =>
      Except.ok (_upload_object_when_key_available transfer_config manifest bucket contents key))
    root root tree

/-- The upload calls a sync run issues, in order. -/
def uploadsOf (rs : List SyncResult) : List UploadAction :=
  rs.filterMap (fun r =>
    match r.outcome with
    | .ok (some a) => some a
    | _ => none)

mutual
/-- The files below one entry, as (path components relative to the enclosing
root, contents), in walk order. -/
def entryFiles : List String → Entry → List (List String × List Nat)
  | pre, .file n c => [(pre ++ [n], c)]
  | pre, .dir n children => forestFiles (pre ++ [n]) children

/-- The files below a directory's children, in walk order. -/
def forestFiles : List String → Forest → List (List String × List Nat)
  | _, .nil => []
  | pre, .cons e rest => entryFiles pre e ++ forestFiles pre rest
end

/-! ## The non-sync directory upload (`_upload_object_to_s3`, kind `dir`)

`upload-object-to-bucket` with `object_type="dir"` runs `os.walk(object)` and
uploads each file under the key `os.path.join(os.path.basename(dirs), file)`:
the basename of the file's immediate parent directory joined with the file
name. -/

/-- `os.path.basename` of a component path: its last component. -/
def basename (path : List String) : String := (path.getLast?).getD ""

/-- The direct files of a directory listing, in order (`os.walk`'s
`files`). -/
def filesHere : Forest → List (String × List Nat)
  | .nil => []
  | .cons (.file n c) rest => (n, c) :: filesHere rest
  | .cons (.dir _ _) rest => filesHere rest

/-- The recursive part of `os.walk`: for each subdirectory in listing order,
upload its direct files under `basename/<name>` keys and descend. -/
def walkSubs (path : List String) : Forest → List (String × List Nat)
  | .nil => []
  | .cons (.file _ _) rest => walkSubs path rest
  | .cons (.dir n children) rest =>
    ((filesHere children).map (fun nc => (basename (path ++ [n]) ++ "/" ++ nc.1, nc.2))
      ++ walkSubs (path ++ [n]) children) ++ walkSubs path rest

/-- The uploads the `dir` branch of `_upload_object_to_s3` issues for the
directory at `path`, in `os.walk` top-down order: each visited directory's
files keyed `os.path.join(os.path.basename(dirs), file)`, then its
subdirectories in order. -/
def walkUploads (path : List String) (f : Forest) : List (String × List Nat) :=
  (filesHere f).map (fun nc => (basename path ++ "/" ++ nc.1, nc.2)) ++ walkSubs path f

/-- The file enumeration of the same `os.walk`: for every visited file, its
parent directory's path, its name and its contents, in walk order. -/
def walkFileSubs (path : List String) : Forest → List (List String × String × List Nat)
  | .nil => []
  | .cons (.file _ _) rest => walkFileSubs path rest
  | .cons (.dir n children) rest =>
    ((filesHere children).map (fun nc => (path ++ [n], nc.1, nc.2))
      ++ walkFileSubs (path ++ [n]) children) ++ walkFileSubs path rest

/-- All files `os.walk` reaches from the directory at `path`, with their
parent directory paths. -/
def walkFiles (path : List String) (f : Forest) : List (List String × String × List Nat) :=
  (filesHere f).map (fun nc => (path, nc.1, nc.2)) ++ walkFileSubs path f

/-- A Python-dict insert into an association list: overwrite the existing
binding, else append. -/
def dictInsert (k : String) (v : List Nat) : List (String × List Nat) → List (String × List Nat)
  | [] => [(k, v)]
  | (k2, v2) :: rest => if k2 = k then (k, v) :: rest else (k2, v2) :: dictInsert k v rest

/-- The bucket contents after issuing the uploads in order: each upload
overwrites the object stored under its key. -/
def applyUploads (bucket : List (String × List Nat)) (ups : List (String × List Nat)) :
    List (String × List Nat) :=
  ups.foldl (fun b kv => dictInsert kv.1 kv.2 b) bucket

/-! ## Helper lemmas -/

theorem chunksAux_fuel {n : Nat} (hn : 0 < n) :
    ∀ fuel fuel' data, data.length ≤ fuel → data.length ≤ fuel' →
      chunksAux n fuel data = chunksAux n fuel' data := by
  intro fuel
  induction fuel with
  | zero =>
    intro fuel' data hf hf'
    rcases data with _ | ⟨a, rest⟩
    · cases fuel' <;> rfl
    · simp at hf
  | succ f ih =>
    intro fuel' data hf hf'
    rcases data with _ | ⟨a, rest⟩
    · cases fuel' <;> rfl
    · rcases fuel' with _ | f'
      · simp at hf'
      · simp only [chunksAux]
        rw [ih f' ((a :: rest).drop n)]
        · simp only [List.length_drop, List.length_cons] at *
          omega
        · simp only [List.length_drop, List.length_cons] at *
          omega

theorem chunksOf_eq {n : Nat} (hn : 0 < n) (data : List Nat) :
    chunksOf n data =
      if data = [] then [] else data.take n :: chunksOf n (data.drop n) := by
  rcases data with _ | ⟨a, rest⟩
  · rfl
  · simp only [chunksOf, List.length_cons, chunksAux, reduceCtorEq, if_false]
    rw [chunksAux_fuel hn rest.length ((a :: rest).drop n).length ((a :: rest).drop n)]
    · simp only [List.length_drop, List.length_cons]
      omega
    · exact Nat.le.refl

theorem fileChunks_nil : fileChunks [] = [] := rfl

theorem fileChunks_cons {data : List Nat} (h : data ≠ []) :
    fileChunks data = data.take CHUNK_SIZE :: fileChunks (data.drop CHUNK_SIZE) := by
  rw [fileChunks, chunksOf_eq (by decide) data, if_neg h]
  rfl

theorem fileChunks_ne_nil {data : List Nat} (h : data ≠ []) : fileChunks data ≠ [] := by
  rw [fileChunks_cons h]
  exact List.cons_ne_nil _ _

theorem fileChunks_small {data : List Nat} (h : data ≠ [])
    (hle : data.length ≤ CHUNK_SIZE) : fileChunks data = [data] := by
  rw [fileChunks_cons h, List.take_of_length_le hle, List.drop_eq_nil_of_le hle,
    fileChunks_nil]

theorem fileChunks_big {data : List Nat} (h : CHUNK_SIZE < data.length) :
    1 < (fileChunks data).length := by
  have hne : data ≠ [] := by
    intro hnil
    simp [hnil] at h
  have hdrop : data.drop CHUNK_SIZE ≠ [] := by
    intro hnil
    have := congrArg List.length hnil
    simp only [List.length_drop, List.length_nil] at this
    omega
  rw [fileChunks_cons hne]
  simp only [List.length_cons]
  have hlen : 0 < (fileChunks (data.drop CHUNK_SIZE)).length :=
    List.length_pos.mpr (fileChunks_ne_nil hdrop)
  omega

theorem foldl_append_eq_flatten (rest : List (List Nat)) :
    ∀ h : List Nat, rest.foldl (· ++ ·) h = (h :: rest).flatten := by
  induction rest with
  | nil => intro h; simp
  | cons a t ih =>
    intro h
    simp only [List.foldl_cons, ih (h ++ a), List.flatten_cons, List.append_assoc]

theorem gen_etag_ne_empty {c : List Nat} {d : String}
    (h : gen_etag c = some d) : d ≠ "" := by
  intro hd
  unfold gen_etag at h
  rcases hm : (fileChunks c).map hash_data with _ | ⟨h1, t⟩
  · rw [hm] at h
    simp at h
  · rcases t with _ | ⟨h2, t2⟩ <;> rw [hm] at h <;>
      simp only [Option.some.injEq] at h <;>
      · rw [hd] at h
        have := congrArg String.length h
        simp [String.length_append] at this
        exact absurd this.2 (by decide)

theorem take_len_append (l₁ l₂ : List String) : (l₁ ++ l₂).take l₁.length = l₁ := by
  simp

theorem drop_len_append (l₁ l₂ : List String) : (l₁ ++ l₂).drop l₁.length = l₂ := by
  simp

theorem relative_to_append (root rel : List String) :
    relative_to (root ++ rel) root = some rel := by
  simp [relative_to]

/-- When `_upload_object_when_key_available` does upload, the action carries
exactly the file, the key, the guessed content type and the given transfer
configuration. -/
theorem upload_eq_some {tc : Option TransferConfig} {m : Manifest} {bucket : String}
    {contents : List Nat} {key : String} {a : UploadAction}
    (h : _upload_object_when_key_available tc m bucket contents key = some a) :
    a = { bucket := bucket, object := contents, key := key,
          contentType := (guess_type key).getD "text/plain", config := tc } := by
  unfold _upload_object_when_key_available at h
  by_cases hc : pyStrEq (manifestGet m key "") (gen_etag contents) = true
  · rw [if_pos hc] at h
    exact absurd h (by simp)
  · rw [if_neg hc] at h
    exact (Option.some.inj h).symm

/-- The upload decision, in the spec's terms: an upload happens exactly when
the key is absent from the manifest or the stored digest differs from the
freshly computed one. -/
theorem upload_isSome_iff (tc : Option TransferConfig) (m : Manifest)
    (bucket : String) (contents : List Nat) (key : String) :
    (_upload_object_when_key_available tc m bucket contents key).isSome = true ↔
      (List.lookup key m = none ∨ List.lookup key m ≠ gen_etag contents) := by
  unfold _upload_object_when_key_available
  rcases hl : List.lookup key m with _ | s <;> rcases he : gen_etag contents with _ | d
  · simp [manifestGet, hl, he, pyStrEq]
  · have hd : ("" == d) = false :=
      beq_eq_false_iff_ne.mpr (fun hh => gen_etag_ne_empty he hh.symm)
    simp [manifestGet, hl, he, pyStrEq, hd]
  · simp [manifestGet, hl, he, pyStrEq]
  · by_cases hsd : s = d
    · subst hsd
      simp [manifestGet, hl, he, pyStrEq]
    · have hd : (s == d) = false := beq_eq_false_iff_ne.mpr hsd
      simp [manifestGet, hl, he, pyStrEq, hd, hsd]

mutual
/-- On every file below one entry, `handle_dir` records exactly the per-file
processor's outcome under the slash-joined relative key, in walk order. -/
theorem handleEntry_spec (proc : List Nat → String → Except String (Option UploadAction))
    (root ext : List String) (e : Entry) :
    handleEntry proc root (root ++ ext) e =
      (entryFiles ext e).map
        (fun fl => ⟨root ++ fl.1, proc fl.2 (String.intercalate "/" fl.1)⟩) := by
  match e with
  | .file n c =>
    simp only [handleEntry, entryFiles, List.map_cons, List.map_nil]
    rw [List.append_assoc]
    exact congrArg (fun o => [SyncResult.mk (root ++ (ext ++ [n])) o])
      (by rw [processFile, relative_to_append])
  | .dir n children =>
    simp only [handleEntry, entryFiles]
    rw [List.append_assoc]
    exact handleForest_spec proc root (ext ++ [n]) children

/-- On every file below a directory's children, `handle_dir` records exactly
the per-file processor's outcome under the slash-joined relative key, in walk
order. -/
theorem handleForest_spec (proc : List Nat → String → Except String (Option UploadAction))
    (root ext : List String) (f : Forest) :
    handleForest proc root (root ++ ext) f =
      (forestFiles ext f).map
        (fun fl => ⟨root ++ fl.1, proc fl.2 (String.intercalate "/" fl.1)⟩) := by
  match f with
  | .nil => simp [handleForest, forestFiles]
  | .cons e rest =>
    simp only [handleForest, forestFiles, List.map_append]
    rw [handleEntry_spec proc root ext e, handleForest_spec proc root ext rest]
end

theorem uploadsOf_map_ok (root : List String)
    (upl : (List String × List Nat) → Option UploadAction) :
    ∀ files : List (List String × List Nat),
      uploadsOf (files.map (fun fl => ⟨root ++ fl.1, Except.ok (upl fl)⟩)) =
        files.filterMap upl := by
  intro files
  induction files with
  | nil => rfl
  | cons fl t ih =>
    rcases hu : upl fl with _ | a <;>
      simp only [List.map_cons, uploadsOf, List.filterMap_cons, hu] <;>
      simpa [uploadsOf] using ih

/-- The uploads a sync run issues are the results of the per-file upload
decision over the files of the tree, in walk order. -/
theorem uploadsOf_sync (tc : Option TransferConfig) (m : Manifest) (bucket : String)
    (root : List String) (tree : Forest) :
    uploadsOf (sync_dir tc m bucket root tree) =
      (forestFiles [] tree).filterMap (fun fl =>
        _upload_object_when_key_available tc m bucket fl.2 (String.intercalate "/" fl.1)) := by
  have hs := handleForest_spec (fun contents key =>
      Except.ok (_upload_object_when_key_available tc m bucket contents key)) root [] tree
  rw [List.append_nil] at hs
  rw [sync_dir, hs]
  exact uploadsOf_map_ok root _ (forestFiles [] tree)

/-- The keys the upload decision lets through over a file list are exactly
the keys whose manifest entry is absent or stale. -/
theorem filterMap_upload_keys (tc : Option TransferConfig) (m : Manifest)
    (bucket : String) :
    ∀ files : List (List String × List Nat),
      ((files.filterMap (fun fl =>
          _upload_object_when_key_available tc m bucket fl.2 (String.intercalate "/" fl.1))).map
        UploadAction.key) =
      (files.filter (fun fl =>
          decide (List.lookup (String.intercalate "/" fl.1) m = none ∨
            List.lookup (String.intercalate "/" fl.1) m ≠ gen_etag fl.2))).map
        (fun fl => String.intercalate "/" fl.1) := by
  intro files
  induction files with
  | nil => rfl
  | cons fl t ih =>
    simp only [List.filterMap_cons, List.filter_cons]
    by_cases hc : (List.lookup (String.intercalate "/" fl.1) m = none ∨
        List.lookup (String.intercalate "/" fl.1) m ≠ gen_etag fl.2)
    · have hs : (_upload_object_when_key_available tc m bucket fl.2
          (String.intercalate "/" fl.1)).isSome = true :=
        (upload_isSome_iff tc m bucket fl.2 (String.intercalate "/" fl.1)).mpr hc
      obtain ⟨a, ha⟩ := Option.isSome_iff_exists.mp hs
      rw [ha]
      simp only [decide_eq_true hc, List.map_cons, ih]
      rw [upload_eq_some ha]
      simp
    · have hs : ¬ (_upload_object_when_key_available tc m bucket fl.2
          (String.intercalate "/" fl.1)).isSome = true := by
        rw [upload_isSome_iff]
        exact hc
      have hn : _upload_object_when_key_available tc m bucket fl.2
          (String.intercalate "/" fl.1) = none := by
        rcases hh : _upload_object_when_key_available tc m bucket fl.2
            (String.intercalate "/" fl.1) with _ | a
        · rfl
        · exact absurd (by rw [hh]; rfl) hs
      rw [hn]
      simp only [decide_eq_false hc, ih]
      simp

/-- `walkSubs` issues exactly one upload per walked file, keyed by the
basename of the file's parent directory joined with the file name. -/
theorem walkSubs_map (path : List String) (f : Forest) :
    walkSubs path f = (walkFileSubs path f).map
      (fun t => (basename t.1 ++ "/" ++ t.2.1, t.2.2)) := by
  match f with
  | .nil => rfl
  | .cons (.file n c) rest =>
    simp only [walkSubs, walkFileSubs]
    exact walkSubs_map path rest
  | .cons (.dir n children) rest =>
    simp only [walkSubs, walkFileSubs, List.map_append, List.map_map]
    rw [walkSubs_map (path ++ [n]) children, walkSubs_map path rest]
    rfl

/-! ## Concrete trees used in the claim instances -/

/-- A tree holding a single zero-length file. -/
def emptyFileTree : Forest := Forest.cons (Entry.file "empty.txt" []) Forest.nil

/-- The manifest after the first sync of `emptyFileTree`: the store records
its own ETag string for the uploaded empty object. -/
def emptyFileManifest : Manifest :=
  [("empty.txt", "\"d41d8cd98f00b204e9800998ecf8427e\"")]

/-- A tree with a file at `a/b/c.txt` below the root. -/
def abcTree : Forest :=
  Forest.cons (Entry.dir "a" (Forest.cons (Entry.dir "b"
    (Forest.cons (Entry.file "c.txt" []) Forest.nil)) Forest.nil)) Forest.nil

/-- Two distinct files, `a/x/f.txt` and `b/x/f.txt`, whose parent
directories share the basename `x`. -/
def collisionTree : Forest :=
  Forest.cons (Entry.dir "a" (Forest.cons (Entry.dir "x"
      (Forest.cons (Entry.file "f.txt" [1]) Forest.nil)) Forest.nil))
    (Forest.cons (Entry.dir "b" (Forest.cons (Entry.dir "x"
      (Forest.cons (Entry.file "f.txt" [2]) Forest.nil)) Forest.nil)) Forest.nil)

/-- A processor that fails on the key `bad.txt` and succeeds elsewhere. -/
def failProc : List Nat → String → Except String (Option UploadAction) :=
  fun _ key => if key = "bad.txt" then Except.error "boom" else Except.ok none

/-- A tree whose first file makes `failProc` fail and whose second does
not. -/
def failTree : Forest :=
  Forest.cons (Entry.file "bad.txt" [1])
    (Forest.cons (Entry.file "good.txt" [2]) Forest.nil)



/-! ## The claims -/

/-- C1: for every file visited by the sync (with the manifest loaded once at
the start), the file is uploaded if and only if its freshly computed content
digest differs from the manifest's stored digest for its relative key, or
that key is absent from the manifest; when the digests are equal the file is
skipped with no upload call.  Stated as: the keys of the uploads a sync run
issues are exactly the visited relative keys whose manifest entry is absent
or differs from the computed digest. -/
theorem C1_upload_iff_digest_mismatch (tc : Option TransferConfig) (m : Manifest)
    (bucket : String) (root : List String) (tree : Forest) :
    (uploadsOf (sync_dir tc m bucket root tree)).map UploadAction.key =
      ((forestFiles [] tree).filter (fun fl =>
          decide (List.lookup (String.intercalate "/" fl.1) m = none ∨
            List.lookup (String.intercalate "/" fl.1) m ≠ gen_etag fl.2))).map
        (fun fl => String.intercalate "/" fl.1) := by
  rw [uploadsOf_sync]
  exact filterMap_upload_keys tc m bucket (forestFiles [] tree)

/-- C2: for a file longer than the fixed 8 MiB chunk size, reading it in
8 MiB chunks yields N > 1 chunks, and its digest is the double-quoted hex MD5
digest of the concatenation of the raw per-chunk MD5 digest bytes, suffixed
with `-` and the chunk count N. -/
theorem C2_multipart_digest (contents : List Nat)
    (h : CHUNK_SIZE < contents.length) :
    1 < (fileChunks contents).length ∧
    gen_etag contents = some ("\"" ++
      bytesToHex (md5 (((fileChunks contents).map md5).flatten)) ++ "-" ++
      toString (fileChunks contents).length ++ "\"") := by
  refine ⟨fileChunks_big h, ?_⟩
  unfold gen_etag
  rcases hfc : fileChunks contents with _ | ⟨c1, t⟩
  · exact absurd hfc (fileChunks_ne_nil (by intro hnil; simp [hnil] at h))
  · rcases t with _ | ⟨c2, t2⟩
    · have h2 := fileChunks_big h
      rw [hfc] at h2
      simp at h2
    · simp only [List.map_cons]
      rw [foldl_append_eq_flatten]
      simp only [hash_data, List.flatten_cons, List.length_cons, List.length_map]
      rfl

/-- C2 witness: a concrete file of 8388609 zero bytes spans two chunks and
gets the multipart digest shape. -/
theorem C2_multipart_digest_witness :
    CHUNK_SIZE < (List.replicate 8388609 (0 : Nat)).length ∧
    (1 < (fileChunks (List.replicate 8388609 (0 : Nat))).length ∧
     gen_etag (List.replicate 8388609 (0 : Nat)) = some ("\"" ++
       bytesToHex (md5 (((fileChunks (List.replicate 8388609 (0 : Nat))).map md5).flatten)) ++ "-" ++
       toString (fileChunks (List.replicate 8388609 (0 : Nat))).length ++ "\"")) :=
  ⟨by rw [List.length_replicate]; decide,
   C2_multipart_digest (List.replicate 8388609 (0 : Nat))
     (by rw [List.length_replicate]; decide)⟩

/-- C3: for a non-empty file of at most the 8 MiB chunk size, the digest is
the double-quoted hex MD5 digest of the whole file's bytes, with no
chunk-count suffix. -/
theorem C3_single_chunk_digest (contents : List Nat) (h : contents ≠ [])
    (hle : contents.length ≤ CHUNK_SIZE) :
    gen_etag contents = some ("\"" ++ bytesToHex (md5 contents) ++ "\"") := by
  unfold gen_etag
  rw [fileChunks_small h hle]
  rfl

/-- C3 witness: the one-byte file `[104]`. -/
theorem C3_single_chunk_digest_witness :
    (([104] : List Nat) ≠ [] ∧ ([104] : List Nat).length ≤ CHUNK_SIZE) ∧
    gen_etag [104] = some ("\"" ++ bytesToHex (md5 [104]) ++ "\"") :=
  ⟨⟨by decide, by decide⟩, C3_single_chunk_digest [104] (by decide) (by decide)⟩

/-- C4 counterexample: with a zero-length file, the sync is not idempotent.
The first sync (empty manifest) uploads `empty.txt`; the manifest then
reflects the uploaded key with the store's digest string for it (the premise
of the claim); yet the second sync over the unchanged tree still issues one
upload, not zero, because the local digest computation returns no digest for
an empty file. -/
theorem C4_counterexample :
    (uploadsOf (sync_dir none [] "bucket" ["root"] emptyFileTree)).length = 1 ∧
    (∀ fl ∈ forestFiles [] emptyFileTree,
      ∃ s, List.lookup (String.intercalate "/" fl.1) emptyFileManifest = some s ∧
        (gen_etag fl.2 = some s ∨ gen_etag fl.2 = none)) ∧
    (uploadsOf (sync_dir none emptyFileManifest "bucket" ["root"] emptyFileTree)).length = 1 := by
  refine ⟨by decide, ?_, by decide⟩
  have hff : forestFiles [] emptyFileTree = [(["empty.txt"], [])] := by decide
  rw [hff]
  intro fl hfl
  rw [List.mem_singleton] at hfl
  subst hfl
  exact ⟨"\"d41d8cd98f00b204e9800998ecf8427e\"", by decide, Or.inr (by decide)⟩

/-- C4 amended: running sync twice against an unchanged local tree is
idempotent provided every file's digest computation returns a digest (i.e.
every file is non-empty): once the manifest stores each file's computed
digest under its relative key, the second sync performs zero uploads. -/
theorem C4_amended_idempotent (tc : Option TransferConfig) (m2 : Manifest)
    (bucket : String) (root : List String) (tree : Forest)
    (h : ∀ fl ∈ forestFiles [] tree, ∃ s, gen_etag fl.2 = some s ∧
        List.lookup (String.intercalate "/" fl.1) m2 = some s) :
    uploadsOf (sync_dir tc m2 bucket root tree) = [] := by
  rw [uploadsOf_sync]
  rw [List.filterMap_eq_nil_iff]
  intro fl hfl
  obtain ⟨s, hg, hl⟩ := h fl hfl
  simp [_upload_object_when_key_available, manifestGet, hl, hg, pyStrEq]

/-- C4 amended witness: a one-byte file whose digest the manifest already
stores is skipped, so the second sync issues zero uploads. -/
theorem C4_amended_idempotent_witness :
    (∀ fl ∈ forestFiles [] (Forest.cons (Entry.file "a.txt" [104]) Forest.nil),
      ∃ s, gen_etag fl.2 = some s ∧
        List.lookup (String.intercalate "/" fl.1)
          [("a.txt", "\"2510c39011c5be704182423e3a695e91\"")] = some s) ∧
    uploadsOf (sync_dir none [("a.txt", "\"2510c39011c5be704182423e3a695e91\"")] "b" ["r"]
      (Forest.cons (Entry.file "a.txt" [104]) Forest.nil)) = [] := by
  have hprem : ∀ fl ∈ forestFiles [] (Forest.cons (Entry.file "a.txt" [104]) Forest.nil),
      ∃ s, gen_etag fl.2 = some s ∧
        List.lookup (String.intercalate "/" fl.1)
          [("a.txt", "\"2510c39011c5be704182423e3a695e91\"")] = some s := by
    have hff : forestFiles [] (Forest.cons (Entry.file "a.txt" [104]) Forest.nil) =
        [(["a.txt"], [104])] := by decide
    rw [hff]
    intro fl hfl
    rw [List.mem_singleton] at hfl
    subst hfl
    exact ⟨"\"2510c39011c5be704182423e3a695e91\"", by decide, by decide⟩
  exact ⟨hprem, C4_amended_idempotent none _ "b" ["r"] _ hprem⟩

/-- C5, the code evaluated at the failing input: `cli` leaves the
module-level transfer_config as `None` (its `global` statement does not cover
that name), so the sync's upload call passes `Config=None` — not a transfer
configuration with multipart chunk size and threshold set to the 8 MiB digest
chunk size as the claim states. -/
theorem C5_transfer_config_never_applied :
    (cli initState).transfer_config = none ∧
    _upload_object_when_key_available (cli initState).transfer_config [] "bucket" [] "index.html" =
      some { bucket := "bucket", object := [], key := "index.html",
             contentType := "text/html", config := none } ∧
    (none : Option TransferConfig) ≠
      some { multipart_chunksize := CHUNK_SIZE, multipart_threshold := CHUNK_SIZE } :=
  ⟨rfl, by decide, by decide⟩

/-- C6: every regular file reached by the sync's recursive descent is
processed under the key equal to its slash-joined path relative to the sync
root, and in particular a file at `<root>/a/b/c.txt` synced from `<root>`
gets key `a/b/c.txt`. -/
theorem C6_relative_key :
    (∀ (proc : List Nat → String → Except String (Option UploadAction))
        (root : List String) (tree : Forest),
      handleForest proc root root tree =
        (forestFiles [] tree).map (fun fl =>
          ⟨root ++ fl.1, proc fl.2 (String.intercalate "/" fl.1)⟩)) ∧
    (uploadsOf (sync_dir none [] "bucket" ["home", "user", "site"] abcTree)).map
      UploadAction.key = ["a/b/c.txt"] := by
  refine ⟨?_, by decide⟩
  intro proc root tree
  have hs := handleForest_spec proc root [] tree
  rwa [List.append_nil] at hs

/-- C7: a failure while processing one file is caught and recorded for that
file only and does not abort the walk: for any per-file processor, however it
fails, every file of the tree gets exactly its own outcome, in walk order;
concretely, a processor that fails on the first file still processes the
second. -/
theorem C7_per_file_failure_does_not_abort :
    (∀ (proc : List Nat → String → Except String (Option UploadAction))
        (root : List String) (tree : Forest),
      (handleForest proc root root tree).map SyncResult.outcome =
        (forestFiles [] tree).map (fun fl => proc fl.2 (String.intercalate "/" fl.1))) ∧
    (handleForest failProc ["r"] ["r"] failTree).map SyncResult.outcome =
      [Except.error "boom", Except.ok none] := by
  refine ⟨?_, by rfl⟩
  intro proc root tree
  have hs := handleForest_spec proc root [] tree
  rw [List.append_nil] at hs
  rw [hs, List.map_map]
  rfl

/-- C8: every upload the sync issues carries the content type inferred from
the key's file extension, and `text/plain` when the extension is
unrecognised. -/
theorem C8_content_type (tc : Option TransferConfig) (m : Manifest)
    (bucket : String) (contents : List Nat) (key : String) (a : UploadAction)
    (h : _upload_object_when_key_available tc m bucket contents key = some a) :
    a.contentType = (guess_type key).getD "text/plain" := by
  rw [upload_eq_some h]

/-- C8 witness: an upload of `style.css` carries content type `text/css`. -/
theorem C8_content_type_witness :
    _upload_object_when_key_available none [] "bucket" [] "style.css" =
      some { bucket := "bucket", object := [], key := "style.css",
             contentType := "text/css", config := none } ∧
    UploadAction.contentType
      { bucket := "bucket", object := [], key := "style.css",
        contentType := "text/css", config := none } =
      (guess_type "style.css").getD "text/plain" :=
  ⟨by decide,
   C8_content_type none [] "bucket" [] "style.css"
     { bucket := "bucket", object := [], key := "style.css",
       contentType := "text/css", config := none } (by decide)⟩

/-- C9: for a zero-length file the digest computation returns no digest
(`None`), and such a file is uploaded on every sync run — never skipped —
because the absent digest never equals the manifest's stored entry or the
empty-string default for missing keys. -/
theorem C9_zero_length_always_uploaded :
    gen_etag [] = none ∧
    (∀ (tc : Option TransferConfig) (m : Manifest) (bucket key : String),
      (_upload_object_when_key_available tc m bucket [] key).isSome = true) ∧
    (∀ m : Manifest,
      (uploadsOf (sync_dir none m "bucket" ["r"] emptyFileTree)).length = 1) := by
  refine ⟨rfl, ?_, ?_⟩
  · intro tc m bucket key
    rfl
  · intro m
    rfl

/-- C10: the non-sync directory upload keys every file by the basename of
its immediate parent directory joined with the file name — not by its path
relative to the given root — so distinct files `a/x/f.txt` and `b/x/f.txt`
(whose relative keys would differ) both map to key `x/f.txt`, and the later
upload overwrites the earlier one in the bucket. -/
theorem C10_dir_upload_key_collision :
    (∀ (path : List String) (f : Forest),
      (walkUploads path f).map Prod.fst =
        (walkFiles path f).map (fun t => basename t.1 ++ "/" ++ t.2.1)) ∧
    walkUploads ["r"] collisionTree = [("x/f.txt", [1]), ("x/f.txt", [2])] ∧
    (forestFiles [] collisionTree).map (fun fl => String.intercalate "/" fl.1) =
      ["a/x/f.txt", "b/x/f.txt"] ∧
    applyUploads [] (walkUploads ["r"] collisionTree) = [("x/f.txt", [2])] := by
  refine ⟨?_, by decide, by decide, by decide⟩
  intro path f
  rw [walkUploads, walkFiles]
  simp only [List.map_append, List.map_map, walkSubs_map]
  rfl
